import Mathlib

/-!
Shallow embedding of the decision-and-order-lifecycle core of the
`aignal-trading-bot` repository (`src/core/ml_trading_bot.py`, helpers in
`src/utils/utils.py` and `src/clients/okx_client.py`), together with proofs
settling the specification claims about it.

Numbers that the Python source handles as floats are modelled as exact
rationals (`ℚ`); decimal literals of the source are read as the exact decimal
values.  External collaborators (the OKX exchange gateway, the prediction
endpoint, the wall clock and the ISO-timestamp parser) are modelled as
explicit inputs: each call's outcome is a field of an environment record,
with `Except` capturing the raised/returned distinction of the source.
-/

namespace MLBot

/-- Python `int(x)` applied to a real number: truncation toward zero. -/
def pyInt (x : ℚ) : ℤ := if 0 ≤ x then ⌊x⌋ else -⌊-x⌋

/-- Python `round(x)` to the nearest integer, ties to even (banker's
rounding), idealized over exact rationals. -/
def pyRoundInt (x : ℚ) : ℤ :=
  let f : ℤ := ⌊x⌋
  let frac : ℚ := x - (f : ℚ)
  if frac < 1/2 then f
  else if 1/2 < frac then f + 1
  else if f % 2 = 0 then f else f + 1

/-- Python `round(x, 8)`: rounding to 8 decimal places. -/
def round8 (x : ℚ) : ℚ := (pyRoundInt (x * 10^8) : ℚ) / 10^8

/-- Python truthiness filter on an optional string: `None` and `""` are
falsy, every other string is kept. -/
def truthyStr : Option String → Option String
  | some s => if s = "" then none else some s
  | none => none

/-- Python truthiness filter on an optional number: `None` and `0` are
falsy. -/
def truthyRat : Option ℚ → Option ℚ
  | some v => if v = 0 then none else some v
  | none => none

/-- A prediction record as consumed by the bot (`pred` dict).  Fields read
with `pred.get(...)` are optional; `current_price` is accessed with
`pred["current_price"]` and hence required. -/
structure Prediction where
  signal : Option String
  confidence : Option ℚ
  profit_after_fee : Option ℚ
  current_price : ℚ
  expected_price : Option ℚ
deriving DecidableEq

/-- The `strategy["position_size"]` sub-dictionary. -/
structure PositionSizeCfg where
  mode : Option String
  percent_of_balance : Option ℚ
  fixed_size : Option ℚ
deriving DecidableEq

/-- The `strategy` configuration dictionary.  Every field the source reads
with `.get(key, default)` is optional here, the default being applied at
the use site exactly as in the source.  `max_exposure_usd` and
`max_open_positions` live under `strategy["risk"]`, the two `*_sec` fields
under `strategy["order_management"]`; the source coerces
`max_open_positions` and the two interval fields with `int(...)`, so they
are carried as integers. -/
structure Strategy where
  dry_run : Option Bool
  signal_whitelist : Option (List String)
  min_confidence : Option ℚ
  min_profit_after_fee : Option ℚ
  use_expected_price : Option Bool
  limit_price_slippage : Option ℚ
  position_size : PositionSizeCfg
  max_exposure_usd : Option ℚ
  max_open_positions : Option ℤ
  order_type : Option String
  cancel_if_unfilled_after_sec : Option ℤ
  monitor_open_orders_every_sec : Option ℤ
deriving DecidableEq

/-- One value of the `self.order_state` ledger: the `meta` dictionary built
by `place_order`.  The source stores `px`/`sz` as decimal string renderings
(`str(price)`, or gateway-reported strings); the numeric values are kept
here — the bot never reads them back.  The live-mode meta carries no
`ordType` key, hence the option. -/
structure OrderMeta where
  ordId : String
  instId : String
  side : String
  px : ℚ
  sz : ℚ
  ordType : Option String
  state : String
  created_at : Option String
deriving DecidableEq

/-- The in-memory order ledger `self.order_state`: an insertion-ordered
string-keyed dictionary, modelled as an association list. -/
abbrev Ledger := List (String × OrderMeta)

/-- Dictionary lookup `d.get(k)` / `k in d`. -/
def dictGet? (d : Ledger) (k : String) : Option OrderMeta :=
  (d.find? (fun p => p.1 == k)).map Prod.snd

/-- Dictionary assignment `d[k] = v`: replaces in place when the key
exists, appends otherwise (Python dicts preserve insertion order). -/
def dictInsert (d : Ledger) (k : String) (v : OrderMeta) : Ledger :=
  if d.any (fun p => p.1 == k) then
    d.map (fun p => if p.1 == k then (k, v) else p)
  else d ++ [(k, v)]

/-- Dictionary removal `d.pop(k, None)`. -/
def dictPop (d : Ledger) (k : String) : Ledger :=
  d.filter (fun p => p.1 != k)

/-- The in-place field update `d[k]["state"] = s`. -/
def dictSetState (d : Ledger) (k : String) (s : String) : Ledger :=
  d.map (fun p => if p.1 == k then (p.1, { p.2 with state := s }) else p)

/-- `MLTradingBot.should_trade`: signal whitelist, confidence and
profit-after-fee gates, in source order. -/
def should_trade (st : Strategy) (pred : Prediction) : Bool :=
  let wl := st.signal_whitelist.getD ["buy", "sell"]
  if !(match pred.signal with
       | some s => wl.contains s
       | none => false) then false
  else if pred.confidence.getD 0 < st.min_confidence.getD (6/10) then false
  else if pred.profit_after_fee.getD 0 < st.min_profit_after_fee.getD 0 then false
  else true

/-- Python `str.lower()`, modelled characterwise (the sides handled by the
bot are ASCII). -/
def pyLower (s : String) : String := ⟨s.data.map Char.toLower⟩

/-- `MLTradingBot.calc_limit_price`. -/
def calc_limit_price (st : Strategy) (pred : Prediction) (side : String) : ℚ :=
  let current_price := pred.current_price
  let expected_price := pred.expected_price.getD current_price
  let use_expected := st.use_expected_price.getD true
  let base := if use_expected then expected_price else current_price
  let slippage := st.limit_price_slippage.getD (1/1000)
  let price :=
    if pyLower side == "buy" then
      if base > current_price then base * (1 + slippage) else base
    else
      if base < current_price then base * (1 - slippage) else base
  round8 price

/-- `MLTradingBot.calc_size`.  The balance query
`self.okx.get_account_balance("USDT")` is an external call whose outcome
(`.ok` value or raised error) is passed in; it is consulted only in
`percent` mode, as in the source.  An unknown mode raises `ValueError`. -/
def calc_size (st : Strategy) (balanceQuery : Except String ℚ) (price : ℚ) :
    Except String ℚ :=
  let pos_cfg := st.position_size
  let mode := pos_cfg.mode.getD "percent"
  if mode == "percent" then
    let pct := pos_cfg.percent_of_balance.getD (1/100)
    match balanceQuery with
    | .error e => .error e
    | .ok balance =>
      let max_exposure := st.max_exposure_usd.getD (10^9)
      let allocated_usd := min (balance * pct) max_exposure
      let size := allocated_usd / price
      .ok (round8 size)
  else if mode == "fixed" then
    .ok (round8 (pos_cfg.fixed_size.getD 0))
  else
    .error "Unknown position size mode"

/-- A successful `okx.place_order` response (OKX order-acknowledgment
record); each field read with `resp.get(...)` is optional. -/
structure OkxOrderResp where
  ordId : Option String
  ord_id : Option String
  clOrdId : Option String
  instId : Option String
  fillPx : Option ℚ
  sz : Option ℚ
  state : Option String
deriving DecidableEq

/-- A successful `okx.cancel_order` response. -/
structure OkxCancelResp where
  sCode : Option String
  state : Option String
  ordId : Option String
deriving DecidableEq

/-- Environment of one `place_order` call: the wall clock `time.time()`,
the `now_iso()` rendering stored as `created_at`, and the gateway outcome
(consulted only in live mode). -/
structure PlaceEnv where
  now : ℚ
  nowIso : String
  resp : Except String OkxOrderResp

/-- Rendering of a float by Python `str`, used only for the live-mode
fallback id `str(time.time())`; no claim depends on the concrete text, only
on its argument. -/
def pyFloatStr (t : ℚ) : String := toString t

/-- The dry-run synthesized order id `f"dry_{int(time.time()*1000)}"`. -/
def dryOrderId (t : ℚ) : String := "dry_" ++ toString (pyInt (t * 1000))

/-- `MLTradingBot.place_order`.  Returns the meta dictionary (or `none` on
a live-mode gateway failure) together with the updated ledger. -/
def place_order (st : Strategy) (env : PlaceEnv) (ledger : Ledger)
    (symbol side : String) (price size : ℚ) (order_type : String) :
    Option OrderMeta × Ledger :=
  if st.dry_run.getD true then
    let fake_id := dryOrderId env.now
    let meta : OrderMeta :=
      { ordId := fake_id, instId := symbol, side := side, px := price, sz := size,
        ordType := some order_type, state := "live", created_at := some env.nowIso }
    (some meta, dictInsert ledger fake_id meta)
  else
    match env.resp with
    | .error _ => (none, ledger)
    | .ok resp =>
      let ord_id :=
        (((truthyStr resp.ordId).orElse fun _ => truthyStr resp.ord_id).orElse
          fun _ => truthyStr resp.clOrdId).getD (pyFloatStr env.now)
      let meta : OrderMeta :=
        { ordId := ord_id, instId := resp.instId.getD symbol, side := side,
          px := (truthyRat resp.fillPx).getD price,
          sz := (truthyRat resp.sz).getD size,
          ordType := none, state := resp.state.getD "live",
          created_at := some env.nowIso }
      (some meta, dictInsert ledger ord_id meta)

/-- The live-mode test `resp.get("sCode", "0") == "0" or
resp.get("state") == "canceled" or resp.get("ordId")` deciding whether a
cancellation response confirms success. -/
def cancelConfirms (resp : OkxCancelResp) : Bool :=
  resp.sCode.getD "0" == "0" || resp.state == some "canceled" ||
    (truthyStr resp.ordId).isSome

/-- `MLTradingBot.cancel_order`.  The gateway outcome (consulted only in
live mode) is passed in; the symbol argument is forwarded only to the
gateway and is therefore part of that environment. -/
def cancel_order (st : Strategy) (respQuery : Except String OkxCancelResp)
    (ledger : Ledger) (order_id : String) : Option OkxCancelResp × Ledger :=
  if st.dry_run.getD true then
    let ledger' :=
      if (dictGet? ledger order_id).isSome then dictSetState ledger order_id "canceled"
      else ledger
    (some { sCode := none, state := some "canceled", ordId := some order_id }, ledger')
  else
    match respQuery with
    | .error _ => (none, ledger)
    | .ok resp =>
      if cancelConfirms resp then (some resp, dictPop ledger order_id)
      else (some resp, ledger)

/-- Number of ledger entries in state `live`
(`sum(1 for o in self.order_state.values() if o.get("state") == "live")`). -/
def liveCount (ledger : Ledger) : ℕ :=
  (ledger.filter (fun p => p.2.state == "live")).length

/-- Environment of one `process_prediction` call: the balance-query
outcome and the placement environment. -/
structure ProcEnv where
  balance : Except String ℚ
  placeEnv : PlaceEnv

/-- `MLTradingBot.process_prediction`.  The first component is `.error e`
when an exception (unknown sizing mode, failed balance query) propagates
out, `.ok (some meta)` when an order record was returned by `place_order`,
and `.ok none` otherwise; the second component is the resulting ledger. -/
def process_prediction (st : Strategy) (symbol : String) (env : ProcEnv)
    (ledger : Ledger) (pred : Prediction) :
    Except String (Option OrderMeta) × Ledger :=
  let side? : Option String :=
    if pred.signal == some "buy" then some "buy"
    else if pred.signal == some "sell" then some "sell"
    else none
  match side? with
  | none => (.ok none, ledger)
  | some side =>
    if !should_trade st pred then (.ok none, ledger)
    else
      let limit_price := calc_limit_price st pred side
      match calc_size st env.balance limit_price with
      | .error e => (.error e, ledger)
      | .ok size =>
        if size ≤ 0 then (.ok none, ledger)
        else
          if (liveCount ledger : ℤ) ≥ st.max_open_positions.getD 10 then
            (.ok none, ledger)
          else
            let placed := place_order st env.placeEnv ledger symbol side
              limit_price size (st.order_type.getD "limit")
            (.ok placed.1, placed.2)

/-- Environment of one `manage_orders` sweep: the wall clock, the
ISO-timestamp parser (`datetime.fromisoformat(s).timestamp()`, `none`
modelling a raised parse error), and the gateway cancel outcome per order
id (consulted only in live mode). -/
structure ManageEnv where
  now_ts : ℚ
  parseTs : String → Option ℚ
  cancelResp : String → Except String OkxCancelResp

/-- One iteration of the `manage_orders` loop body, acting on the pair of
(current ledger, ids for which `cancel_order` has been invoked) for one
snapshot entry. -/
def manage_step (st : Strategy) (env : ManageEnv) (cancel_after : ℤ)
    (acc : Ledger × List String) (entry : String × OrderMeta) :
    Ledger × List String :=
  let ord_id := entry.1
  let meta := entry.2
  if meta.state != "live" then acc
  else
    match truthyStr meta.created_at with
    | none => acc
    | some created_at =>
      let created_ts := (env.parseTs (created_at.replace "Z" "+00:00")).getD env.now_ts
      if env.now_ts - created_ts > (cancel_after : ℚ) then
        ((cancel_order st (env.cancelResp ord_id) acc.1 ord_id).2, acc.2 ++ [ord_id])
      else acc

/-- `MLTradingBot.manage_orders`: iterates over a snapshot
`list(self.order_state.items())` of the ledger taken at entry, threading
the mutated ledger through.  Returns the final ledger and, as
instrumentation, the list of order ids for which `cancel_order` was
invoked. -/
def manage_orders (st : Strategy) (env : ManageEnv) (ledger : Ledger) :
    Ledger × List String :=
  let cancel_after := st.cancel_if_unfilled_after_sec.getD 120
  ledger.foldl (manage_step st env cancel_after) (ledger, [])

/-- Environment of one `run_once` call: the prediction-fetch outcome
(`none` when `fetch_prediction` returned nothing usable), the
`process_prediction` environment and the environment of the sweep
`run_once` performs at its end. -/
structure RunOnceEnv where
  pred : Option Prediction
  procEnv : ProcEnv
  manageEnv : ManageEnv

/-- `MLTradingBot.run_once`.  Returns the resulting ledger together with
the number of `manage_orders` sweeps performed (instrumentation for the
timing claims); `.error` models an exception propagating out of
`process_prediction`. -/
def run_once (st : Strategy) (symbol : String) (env : RunOnceEnv)
    (ledger : Ledger) : Except String (Ledger × ℕ) :=
  match env.pred with
  | none => .ok (ledger, 0)
  | some pred =>
    match process_prediction st symbol env.procEnv ledger pred with
    | (.error e, _) => .error e
    | (.ok _, ledger') => .ok ((manage_orders st env.manageEnv ledger').1, 1)

/-- Environment of one `run_loop` iteration: the `run_once` environment,
the `time.time()` value read at the sweep-gate check, the `time.time()`
value stored into `last_manage` after a gated sweep, and the environment of
the gated `manage_orders` call. -/
structure LoopIterEnv where
  runEnv : RunOnceEnv
  t_check : ℚ
  t_reset : ℚ
  manageEnv2 : ManageEnv

/-- One iteration of the `run_loop` body (sans `time.sleep`): `run_once`,
then the timer-gated `manage_orders` sweep.  Returns the ledger, the new
`last_manage` value and the total number of `manage_orders` invocations of
the iteration. -/
def run_loop_iter (st : Strategy) (symbol : String) (env : LoopIterEnv)
    (last_manage : ℚ) (ledger : Ledger) :
    Except String (Ledger × ℚ × ℕ) :=
  match run_once st symbol env.runEnv ledger with
  | .error e => .error e
  | .ok (ledger', n) =>
    let manage_interval : ℤ := st.monitor_open_orders_every_sec.getD 15
    if env.t_check - last_manage > (manage_interval : ℚ) then
      .ok ((manage_orders st env.manageEnv2 ledger').1, env.t_reset, n + 1)
    else
      .ok (ledger', last_manage, n)

/-! ### Specification-side definitions (for refinement claims)

These two definitions follow the specification's words, to be compared
with the source-derived `should_trade` and `calc_limit_price`. -/

/-- `shouldTrade` as the specification words it: the signal is a member of
the whitelist (default `{buy, sell}`), the confidence reaches the minimum
(default 0.6) and the profit after fee reaches the minimum (default 0). -/
def shouldTrade_spec (st : Strategy) (pred : Prediction) : Prop :=
  (∃ s, pred.signal = some s ∧ s ∈ st.signal_whitelist.getD ["buy", "sell"]) ∧
  st.min_confidence.getD (6/10) ≤ pred.confidence.getD 0 ∧
  st.min_profit_after_fee.getD 0 ≤ pred.profit_after_fee.getD 0

/-- `calcLimitPrice` as the specification words it, for sides `buy` and
`sell`: base is the expected price when `use_expected_price` is set
(default true) and otherwise the current price; buy pads upward by the
slippage when the base exceeds the current price, sell pads downward when
the base is below it; default slippage 1/1000; result rounded to 8 decimal
places. -/
def calcLimitPrice_spec (st : Strategy) (pred : Prediction) (side : String) : ℚ :=
  let current := pred.current_price
  let expected := pred.expected_price.getD current
  let base := if st.use_expected_price.getD true then expected else current
  let slippage := st.limit_price_slippage.getD (1/1000)
  if side = "buy" then
    if base > current then round8 (base * (1 + slippage)) else round8 base
  else
    if base < current then round8 (base * (1 - slippage)) else round8 base

/-! ### Concrete instances used by witnesses and counterexamples -/

/-- A strategy dictionary with every optional key absent: all defaults of
the source apply (dry-run, whitelist `{buy, sell}`, confidence 0.6, …). -/
def stDefault : Strategy :=
  { dry_run := none, signal_whitelist := none, min_confidence := none,
    min_profit_after_fee := none, use_expected_price := none,
    limit_price_slippage := none, position_size := ⟨none, none, none⟩,
    max_exposure_usd := none, max_open_positions := none, order_type := none,
    cancel_if_unfilled_after_sec := none, monitor_open_orders_every_sec := none }

/-- A live-mode (non-dry-run) variant of `stDefault`. -/
def stLive : Strategy := { stDefault with dry_run := some false }

end MLBot

namespace MLBot

/-- Concrete instances used by witnesses and counterexamples. -/
def metaLive : OrderMeta :=
  { ordId := "o1", instId := "BTC-USDT", side := "buy", px := 100, sz := 1,
    ordType := some "limit", state := "live",
    created_at := some "2024-01-01T00:00:00+00:00" }

def metaNoCreated : OrderMeta := { metaLive with created_at := none }

def metaCanceled : OrderMeta := { metaLive with state := "canceled" }

def envSweep : ManageEnv :=
  { now_ts := 1000, parseTs := fun _ => some 0, cancelResp := fun _ => .error "gw" }

def predBuy : Prediction := ⟨some "buy", some (8/10), some (2/1000), 100, some 102⟩

def envProc : ProcEnv :=
  { balance := .ok 1000, placeEnv := ⟨1, "2024-01-01T00:00:00+00:00", .error "gw"⟩ }

/-- Value of a decimal digit character. -/
def digitVal (c : Char) : ℕ := c.toNat - Char.toNat '0'

/-- Evaluate a decimal digit string (most significant digit first),
starting from an accumulator. -/
def evalDigitsFrom (a : ℕ) (l : List Char) : ℕ :=
  l.foldl (fun acc c => 10 * acc + digitVal c) a

def predHold : Prediction := ⟨some "hold", none, none, 1, none⟩

def envManageTrivial : ManageEnv :=
  { now_ts := 0, parseTs := fun _ => none, cancelResp := fun _ => .error "gw" }

def envLoopCex : LoopIterEnv :=
  { runEnv := { pred := some predHold,
                procEnv := { balance := .ok 0, placeEnv := ⟨0, "t", .error "gw"⟩ },
                manageEnv := envManageTrivial },
    t_check := 10, t_reset := 11, manageEnv2 := envManageTrivial }

/-! ### Claim C1: the `should_trade` gate -/

/-- Claim C1: `should_trade` returns true iff the signal is whitelisted
(default `{buy, sell}`), the confidence reaches `min_confidence`
(default 0.6) and the profit after fee reaches `min_profit_after_fee`
(default 0); in particular a confidence below the minimum forces false. -/
theorem shouldTrade_characterization (st : Strategy) (pred : Prediction) :
    (should_trade st pred = true ↔ shouldTrade_spec st pred) ∧
    (pred.confidence.getD 0 < st.min_confidence.getD (6/10) →
      should_trade st pred = false) := by
  have h : should_trade st pred = true ↔ shouldTrade_spec st pred := by
    unfold should_trade shouldTrade_spec
    cases hs : pred.signal with
    | none => simp
    | some s =>
      by_cases h1 : s ∈ st.signal_whitelist.getD ["buy", "sell"] <;>
        by_cases h2 : pred.confidence.getD 0 < st.min_confidence.getD (6/10) <;>
        by_cases h3 : pred.profit_after_fee.getD 0 <
          st.min_profit_after_fee.getD 0 <;>
        simp [h1, h2, h3, List.elem_iff, not_lt.mp]
  refine ⟨h, fun hc => ?_⟩
  cases hsb : should_trade st pred
  · rfl
  · exact absurd ((h.mp hsb).2.1) (not_le.mpr hc)

/-- Claim C1 witness: a concrete prediction with confidence 0.4 under the
default strategy is below the 0.6 minimum and is rejected. -/
theorem shouldTrade_characterization_witness :
    (Prediction.confidence ⟨some "buy", some (4/10), some (2/1000), 100, some 102⟩).getD 0 <
      stDefault.min_confidence.getD (6/10) ∧
    should_trade stDefault ⟨some "buy", some (4/10), some (2/1000), 100, some 102⟩ = false :=
  ⟨by norm_num [stDefault],
   (shouldTrade_characterization stDefault
     ⟨some "buy", some (4/10), some (2/1000), 100, some 102⟩).2
     (by norm_num [stDefault])⟩

/-! ### Claim C2: the limit-price calculation -/

/-- Claim C2: for sides `buy` and `sell`, `calc_limit_price` computes exactly
the specification's formula: base is the expected price when
`use_expected_price` (default true), else the current price; buy pads by
`1 + slippage` when the base exceeds the current price, sell by
`1 - slippage` when below; default slippage 0.001; result rounded to 8
decimal places. -/
theorem calcLimitPrice_matches_spec (st : Strategy) (pred : Prediction) :
    calc_limit_price st pred "buy" = calcLimitPrice_spec st pred "buy" ∧
    calc_limit_price st pred "sell" = calcLimitPrice_spec st pred "sell" := by
  have hb : (pyLower "buy" == "buy") = true := by decide
  have hsl : (pyLower "sell" == "buy") = false := by decide
  unfold calc_limit_price calcLimitPrice_spec
  rw [hb, hsl]
  constructor <;> split_ifs <;> simp_all [apply_ite round8]

end MLBot

namespace MLBot

/-! ### Dictionary lemmas -/

theorem dictGet?_cons (p : String × OrderMeta) (t : Ledger) (k : String) :
    dictGet? (p :: t) k = if p.1 == k then some p.2 else dictGet? t k := by
  by_cases h : p.1 = k <;> simp [dictGet?, List.find?_cons, h]

theorem dictSetState_cons (p : String × OrderMeta) (t : Ledger) (k s : String) :
    dictSetState (p :: t) k s =
      (if p.1 == k then (p.1, { p.2 with state := s }) else p) :: dictSetState t k s := rfl

theorem dictPop_cons (p : String × OrderMeta) (t : Ledger) (k : String) :
    dictPop (p :: t) k = if p.1 != k then p :: dictPop t k else dictPop t k := by
  by_cases h : p.1 = k <;> simp [dictPop, List.filter_cons, h]

theorem dictGet?_of_mem_nodup (d : Ledger) (k : String) (v : OrderMeta)
    (hnd : (d.map Prod.fst).Nodup) (hmem : (k, v) ∈ d) :
    dictGet? d k = some v := by
  induction d with
  | nil => simp at hmem
  | cons p t ih =>
    rw [List.map_cons, List.nodup_cons] at hnd
    rcases List.mem_cons.mp hmem with h | h
    · subst h; simp [dictGet?]
    · have hk : p.1 ≠ k := by
        intro he
        exact hnd.1 (he ▸ List.mem_map.mpr ⟨(k, v), h, rfl⟩)
      rw [dictGet?_cons, if_neg (by simpa using hk)]
      exact ih hnd.2 h

theorem dictGet?_dictSetState_self (d : Ledger) (k s : String) (m : OrderMeta)
    (h : dictGet? d k = some m) :
    dictGet? (dictSetState d k s) k = some { m with state := s } := by
  induction d with
  | nil => simp [dictGet?] at h
  | cons p t ih =>
    obtain ⟨a, v⟩ := p
    rw [dictGet?_cons] at h
    rw [dictSetState_cons]
    by_cases hk : a = k
    · subst hk
      simp only [beq_self_eq_true, if_true] at h
      simp only [beq_self_eq_true, if_true, dictGet?_cons]
      injection h with h
      subst h
      rfl
    · have hb : ((a, v).1 == k) = false := by simpa using hk
      rw [hb] at h
      simp only [Bool.false_eq_true, if_false] at h
      simp only [hb, Bool.false_eq_true, if_false, dictGet?_cons]
      exact ih h

theorem dictGet?_dictSetState_other (d : Ledger) (k k' s : String) (hne : k ≠ k') :
    dictGet? (dictSetState d k' s) k = dictGet? d k := by
  induction d with
  | nil => rfl
  | cons p t ih =>
    obtain ⟨a, v⟩ := p
    rw [dictSetState_cons]
    by_cases hk : a = k'
    · subst hk
      have hb : ((a, v).1 == k) = false := by simpa using Ne.symm hne
      simp only [beq_self_eq_true, if_true, dictGet?_cons, hb, Bool.false_eq_true, if_false]
      exact ih
    · have hb : ((a, v).1 == k') = false := by simpa using hk
      simp only [hb, Bool.false_eq_true, if_false, dictGet?_cons]
      by_cases hk2 : a = k
      · simp [hk2]
      · have hb2 : ((a, v).1 == k) = false := by simpa using hk2
        simp only [hb2, Bool.false_eq_true, if_false]
        exact ih

theorem dictGet?_dictSetState_none (d : Ledger) (k k' s : String)
    (h : dictGet? d k = none) :
    dictGet? (dictSetState d k' s) k = none := by
  induction d with
  | nil => rfl
  | cons p t ih =>
    obtain ⟨a, v⟩ := p
    rw [dictGet?_cons] at h
    by_cases hk : a = k
    · subst hk; simp at h
    · have hb : ((a, v).1 == k) = false := by simpa using hk
      rw [hb] at h
      simp only [Bool.false_eq_true, if_false] at h
      rw [dictSetState_cons]
      by_cases hk' : a = k'
      · subst hk'
        simp only [beq_self_eq_true, if_true, dictGet?_cons, hb, Bool.false_eq_true, if_false]
        exact ih h
      · have hb' : ((a, v).1 == k') = false := by simpa using hk'
        simp only [hb', Bool.false_eq_true, if_false, dictGet?_cons, hb]
        exact ih h

theorem dictGet?_dictPop_self (d : Ledger) (k : String) :
    dictGet? (dictPop d k) k = none := by
  induction d with
  | nil => rfl
  | cons p t ih =>
    obtain ⟨a, v⟩ := p
    rw [dictPop_cons]
    by_cases hk : a = k
    · subst hk; simp only [bne_self_eq_false, Bool.false_eq_true, if_false]; exact ih
    · have hb : ((a, v).1 != k) = true := by simpa using hk
      rw [hb, if_pos rfl, dictGet?_cons, if_neg (by simpa using hk)]
      exact ih

theorem dictGet?_dictPop_other (d : Ledger) (k k' : String) (hne : k ≠ k') :
    dictGet? (dictPop d k') k = dictGet? d k := by
  induction d with
  | nil => rfl
  | cons p t ih =>
    obtain ⟨a, v⟩ := p
    rw [dictPop_cons, dictGet?_cons]
    by_cases hk : a = k'
    · subst hk
      have hb : ((a, v).1 == k) = false := by simpa using Ne.symm hne
      simp only [bne_self_eq_false, Bool.false_eq_true, if_false, hb]
      exact ih
    · have hb : ((a, v).1 != k') = true := by simpa using hk
      rw [hb, if_pos rfl, dictGet?_cons]
      by_cases hk2 : a = k
      · simp [hk2]
      · have hb2 : ((a, v).1 == k) = false := by simpa using hk2
        simp only [hb2, Bool.false_eq_true, if_false]
        exact ih

theorem dictGet?_dictPop_none (d : Ledger) (k k' : String)
    (h : dictGet? d k = none) :
    dictGet? (dictPop d k') k = none := by
  by_cases hk : k = k'
  · subst hk; exact dictGet?_dictPop_self d k
  · rw [dictGet?_dictPop_other d k k' hk]; exact h

end MLBot
namespace MLBot

/-! ### Effect of `cancel_order` on ledger lookups -/

theorem cancel_order_get_other (st : Strategy) (r : Except String OkxCancelResp)
    (d : Ledger) (oid k : String) (hne : k ≠ oid) :
    dictGet? (cancel_order st r d oid).2 k = dictGet? d k := by
  unfold cancel_order
  by_cases hd : st.dry_run.getD true
  · simp only [hd, if_true]
    by_cases hm : (dictGet? d oid).isSome
    · simp only [hm, if_true]
      exact dictGet?_dictSetState_other d k oid "canceled" hne
    · simp only [hm, Bool.false_eq_true, if_false]
  · simp only [hd, Bool.false_eq_true, if_false]
    cases r with
    | error e => rfl
    | ok resp =>
      by_cases hc : cancelConfirms resp
      · simp only [hc, if_true]
        exact dictGet?_dictPop_other d k oid hne
      · simp only [hc, Bool.false_eq_true, if_false]

theorem cancel_order_get_none (st : Strategy) (r : Except String OkxCancelResp)
    (d : Ledger) (oid k : String) (h : dictGet? d k = none) :
    dictGet? (cancel_order st r d oid).2 k = none := by
  unfold cancel_order
  by_cases hd : st.dry_run.getD true
  · simp only [hd, if_true]
    by_cases hm : (dictGet? d oid).isSome
    · simp only [hm, if_true]
      exact dictGet?_dictSetState_none d k oid "canceled" h
    · simp only [hm, Bool.false_eq_true, if_false]; exact h
  · simp only [hd, Bool.false_eq_true, if_false]
    cases r with
    | error e => exact h
    | ok resp =>
      by_cases hc : cancelConfirms resp
      · simp only [hc, if_true]
        exact dictGet?_dictPop_none d k oid h
      · simp only [hc, Bool.false_eq_true, if_false]; exact h

theorem cancel_order_get_self_dry (st : Strategy) (r : Except String OkxCancelResp)
    (d : Ledger) (oid : String) (m : OrderMeta)
    (hdry : st.dry_run.getD true = true) (h : dictGet? d oid = some m) :
    dictGet? (cancel_order st r d oid).2 oid = some { m with state := "canceled" } := by
  unfold cancel_order
  simp only [hdry, if_true, h, Option.isSome_some]
  exact dictGet?_dictSetState_self d oid "canceled" m h

theorem cancel_order_get_self_live_confirmed (st : Strategy) (resp : OkxCancelResp)
    (d : Ledger) (oid : String)
    (hlive : st.dry_run.getD true = false) (hc : cancelConfirms resp = true) :
    dictGet? (cancel_order st (.ok resp) d oid).2 oid = none := by
  unfold cancel_order
  simp only [hlive, Bool.false_eq_true, if_false, hc, if_true]
  exact dictGet?_dictPop_self d oid

/-! ### Shape of one sweep step -/

theorem manage_step_eq_or (st : Strategy) (env : ManageEnv) (ca : ℤ)
    (acc : Ledger × List String) (e : String × OrderMeta) :
    manage_step st env ca acc e = acc ∨
    manage_step st env ca acc e =
      ((cancel_order st (env.cancelResp e.1) acc.1 e.1).2, acc.2 ++ [e.1]) := by
  unfold manage_step
  by_cases h1 : e.2.state != "live"
  · left; simp [h1]
  · simp only [h1, Bool.false_eq_true, if_false]
    cases h2 : truthyStr e.2.created_at with
    | none => left; rfl
    | some c =>
      by_cases h3 : env.now_ts - (env.parseTs (c.replace "Z" "+00:00")).getD env.now_ts > (ca : ℚ)
      · right; simp [h3]
      · left; simp [h3]

theorem manage_step_fires (st : Strategy) (env : ManageEnv) (ca : ℤ)
    (acc : Ledger × List String) (oid : String) (meta : OrderMeta) (c : String)
    (hlive : meta.state = "live") (hcr : truthyStr meta.created_at = some c)
    (helapsed : env.now_ts - (env.parseTs (c.replace "Z" "+00:00")).getD env.now_ts > (ca : ℚ)) :
    manage_step st env ca acc (oid, meta) =
      ((cancel_order st (env.cancelResp oid) acc.1 oid).2, acc.2 ++ [oid]) := by
  unfold manage_step
  simp [hlive, hcr, helapsed]

theorem manage_step_skips (st : Strategy) (env : ManageEnv) (ca : ℤ)
    (acc : Ledger × List String) (oid : String) (meta : OrderMeta) (c : String)
    (hcr : truthyStr meta.created_at = some c)
    (helapsed : ¬(env.now_ts - (env.parseTs (c.replace "Z" "+00:00")).getD env.now_ts > (ca : ℚ))) :
    manage_step st env ca acc (oid, meta) = acc := by
  unfold manage_step
  by_cases h1 : meta.state != "live"
  · simp [h1]
  · simp [h1, hcr, helapsed]

theorem manage_step_skips_no_created (st : Strategy) (env : ManageEnv) (ca : ℤ)
    (acc : Ledger × List String) (oid : String) (meta : OrderMeta)
    (hcr : truthyStr meta.created_at = none) :
    manage_step st env ca acc (oid, meta) = acc := by
  unfold manage_step
  by_cases h1 : meta.state != "live"
  · simp [h1]
  · simp [h1, hcr]

end MLBot
namespace MLBot

/-! ### Fold-level sweep lemmas -/

theorem manage_fold_get_other (st : Strategy) (env : ManageEnv) (ca : ℤ) (k : String) :
    ∀ (l : List (String × OrderMeta)) (acc : Ledger × List String),
      (∀ e ∈ l, e.1 ≠ k) →
      dictGet? (l.foldl (manage_step st env ca) acc).1 k = dictGet? acc.1 k := by
  intro l
  induction l with
  | nil => intro acc _; rfl
  | cons e t ih =>
    intro acc hk
    rw [List.foldl_cons]
    rw [ih (manage_step st env ca acc e) (fun e' he' => hk e' (List.mem_cons_of_mem e he'))]
    rcases manage_step_eq_or st env ca acc e with h | h
    · rw [h]
    · rw [h]
      exact cancel_order_get_other st (env.cancelResp e.1) acc.1 e.1 k
        (fun hkk => hk e (List.mem_cons_self e t) hkk.symm)

theorem manage_fold_canceled_mono (st : Strategy) (env : ManageEnv) (ca : ℤ) (k : String) :
    ∀ (l : List (String × OrderMeta)) (acc : Ledger × List String),
      k ∈ acc.2 → k ∈ (l.foldl (manage_step st env ca) acc).2 := by
  intro l
  induction l with
  | nil => intro acc h; exact h
  | cons e t ih =>
    intro acc h
    rw [List.foldl_cons]
    apply ih
    rcases manage_step_eq_or st env ca acc e with he | he
    · rw [he]; exact h
    · rw [he]; exact List.mem_append_left _ h

theorem manage_fold_canceled_not_mem (st : Strategy) (env : ManageEnv) (ca : ℤ) (k : String) :
    ∀ (l : List (String × OrderMeta)) (acc : Ledger × List String),
      (∀ e ∈ l, e.1 ≠ k) → k ∉ acc.2 →
      k ∉ (l.foldl (manage_step st env ca) acc).2 := by
  intro l
  induction l with
  | nil => intro acc _ h; exact h
  | cons e t ih =>
    intro acc hk h
    rw [List.foldl_cons]
    apply ih (manage_step st env ca acc e) (fun e' he' => hk e' (List.mem_cons_of_mem e he'))
    rcases manage_step_eq_or st env ca acc e with he | he
    · rw [he]; exact h
    · rw [he]
      intro hmem
      rcases List.mem_append.mp hmem with hm | hm
      · exact h hm
      · exact hk e (List.mem_cons_self e t) (List.mem_singleton.mp hm).symm

end MLBot
namespace MLBot

theorem manage_orders_eq_foldl (st : Strategy) (env : ManageEnv) (ledger : Ledger) :
    manage_orders st env ledger =
      ledger.foldl
        (manage_step st env (st.cancel_if_unfilled_after_sec.getD 120)) (ledger, []) := rfl

theorem manage_fold_fires (st : Strategy) (env : ManageEnv) (ca : ℤ)
    (oid : String) (meta : OrderMeta) (c : String)
    (hlive : meta.state = "live") (hcr : truthyStr meta.created_at = some c)
    (helapsed : env.now_ts - (env.parseTs (c.replace "Z" "+00:00")).getD env.now_ts > (ca : ℚ)) :
    ∀ (l : List (String × OrderMeta)) (acc : Ledger × List String),
      (oid, meta) ∈ l → (l.map Prod.fst).Nodup →
      dictGet? acc.1 oid = some meta →
      oid ∈ (l.foldl (manage_step st env ca) acc).2 ∧
      (st.dry_run.getD true = true →
        dictGet? (l.foldl (manage_step st env ca) acc).1 oid =
          some { meta with state := "canceled" }) ∧
      (∀ resp, st.dry_run.getD true = false → env.cancelResp oid = .ok resp →
        cancelConfirms resp = true →
        dictGet? (l.foldl (manage_step st env ca) acc).1 oid = none) := by
  intro l
  induction l with
  | nil => intro acc hmem _ _; simp at hmem
  | cons e t ih =>
    intro acc hmem hnd hget
    rw [List.map_cons, List.nodup_cons] at hnd
    rw [List.foldl_cons]
    rcases List.mem_cons.mp hmem with he | he
    · subst he
      rw [manage_step_fires st env ca acc oid meta c hlive hcr helapsed]
      have hnk : ∀ e' ∈ t, e'.1 ≠ oid := by
        intro e' he' heq
        exact hnd.1 (heq ▸ List.mem_map.mpr ⟨e', he', rfl⟩)
      refine ⟨?_, ?_, ?_⟩
      · apply manage_fold_canceled_mono
        exact List.mem_append_right _ (List.mem_singleton.mpr rfl)
      · intro hdry
        rw [manage_fold_get_other st env ca oid t _ hnk]
        exact cancel_order_get_self_dry st (env.cancelResp oid) acc.1 oid meta hdry hget
      · intro resp hlv hresp hconf
        rw [manage_fold_get_other st env ca oid t _ hnk, hresp]
        exact cancel_order_get_self_live_confirmed st resp acc.1 oid hlv hconf
    · have hne : e.1 ≠ oid := by
        intro heq
        exact hnd.1 (heq ▸ List.mem_map.mpr ⟨(oid, meta), he, rfl⟩)
      have hget' : dictGet? (manage_step st env ca acc e).1 oid = some meta := by
        rcases manage_step_eq_or st env ca acc e with h | h
        · rw [h]; exact hget
        · rw [h, cancel_order_get_other st (env.cancelResp e.1) acc.1 e.1 oid (Ne.symm hne)]
          exact hget
      exact ih (manage_step st env ca acc e) he hnd.2 hget'

theorem manage_fold_skip (st : Strategy) (env : ManageEnv) (ca : ℤ)
    (oid : String) (meta : OrderMeta)
    (hskip : ∀ acc, manage_step st env ca acc (oid, meta) = acc) :
    ∀ (l : List (String × OrderMeta)) (acc : Ledger × List String),
      (oid, meta) ∈ l → (l.map Prod.fst).Nodup →
      dictGet? acc.1 oid = some meta → oid ∉ acc.2 →
      dictGet? (l.foldl (manage_step st env ca) acc).1 oid = some meta ∧
      oid ∉ (l.foldl (manage_step st env ca) acc).2 := by
  intro l
  induction l with
  | nil => intro acc hmem _ _ _; simp at hmem
  | cons e t ih =>
    intro acc hmem hnd hget hnm
    rw [List.map_cons, List.nodup_cons] at hnd
    rw [List.foldl_cons]
    rcases List.mem_cons.mp hmem with he | he
    · subst he
      rw [hskip acc]
      have hnk : ∀ e' ∈ t, e'.1 ≠ oid := by
        intro e' he' heq
        exact hnd.1 (heq ▸ List.mem_map.mpr ⟨e', he', rfl⟩)
      constructor
      · rw [manage_fold_get_other st env ca oid t acc hnk]; exact hget
      · exact manage_fold_canceled_not_mem st env ca oid t acc hnk hnm
    · have hne : e.1 ≠ oid := by
        intro heq
        exact hnd.1 (heq ▸ List.mem_map.mpr ⟨(oid, meta), he, rfl⟩)
      have hget' : dictGet? (manage_step st env ca acc e).1 oid = some meta := by
        rcases manage_step_eq_or st env ca acc e with h | h
        · rw [h]; exact hget
        · rw [h, cancel_order_get_other st (env.cancelResp e.1) acc.1 e.1 oid (Ne.symm hne)]
          exact hget
      have hnm' : oid ∉ (manage_step st env ca acc e).2 := by
        rcases manage_step_eq_or st env ca acc e with h | h
        · rw [h]; exact hnm
        · rw [h]
          intro hmm
          rcases List.mem_append.mp hmm with hm | hm
          · exact hnm hm
          · exact hne (List.mem_singleton.mp hm).symm
      exact ih (manage_step st env ca acc e) he hnd.2 hget' hnm'

end MLBot
namespace MLBot

/-- Claim C5: timed-out live orders are canceled by the sweep; unparseable
timestamps count as elapsed 0. -/
theorem manageOrders_cancels_timed_out (st : Strategy) (env : ManageEnv)
    (ledger : Ledger) (oid : String) (meta : OrderMeta) (c : String)
    (hnd : (ledger.map Prod.fst).Nodup)
    (hmem : (oid, meta) ∈ ledger)
    (hlive : meta.state = "live")
    (hcr : truthyStr meta.created_at = some c) :
    (∀ ts, env.parseTs (c.replace "Z" "+00:00") = some ts →
      env.now_ts - ts > ((st.cancel_if_unfilled_after_sec.getD 120 : ℤ) : ℚ) →
      oid ∈ (manage_orders st env ledger).2 ∧
      (st.dry_run.getD true = true →
        dictGet? (manage_orders st env ledger).1 oid =
          some { meta with state := "canceled" }) ∧
      (∀ resp, st.dry_run.getD true = false → env.cancelResp oid = .ok resp →
        cancelConfirms resp = true →
        dictGet? (manage_orders st env ledger).1 oid = none)) ∧
    (env.parseTs (c.replace "Z" "+00:00") = none →
      0 ≤ st.cancel_if_unfilled_after_sec.getD 120 →
      dictGet? (manage_orders st env ledger).1 oid = some meta ∧
      oid ∉ (manage_orders st env ledger).2) := by
  have hget : dictGet? ledger oid = some meta :=
    dictGet?_of_mem_nodup ledger oid meta hnd hmem
  rw [manage_orders_eq_foldl]
  constructor
  · intro ts hts hel
    have hel' : env.now_ts - (env.parseTs (c.replace "Z" "+00:00")).getD env.now_ts >
        ((st.cancel_if_unfilled_after_sec.getD 120 : ℤ) : ℚ) := by
      rw [hts]; exact hel
    exact manage_fold_fires st env _ oid meta c hlive hcr hel'
      ledger (ledger, []) hmem hnd hget
  · intro hts hca
    have hskip : ∀ acc,
        manage_step st env (st.cancel_if_unfilled_after_sec.getD 120) acc (oid, meta) = acc := by
      intro acc
      apply manage_step_skips st env _ acc oid meta c hcr
      rw [hts, Option.getD_none, sub_self]
      exact not_lt.mpr (by exact_mod_cast hca)
    exact manage_fold_skip st env _ oid meta hskip ledger (ledger, []) hmem hnd hget
      (by simp)

/-- Claim C10: a live entry whose `created_at` is absent or empty is never
canceled by the sweep and survives it unchanged. -/
theorem manageOrders_skips_missing_created_at (st : Strategy) (env : ManageEnv)
    (ledger : Ledger) (oid : String) (meta : OrderMeta)
    (hnd : (ledger.map Prod.fst).Nodup)
    (hmem : (oid, meta) ∈ ledger)
    (hlive : meta.state = "live")
    (hcr : truthyStr meta.created_at = none) :
    dictGet? (manage_orders st env ledger).1 oid = some meta ∧
    oid ∉ (manage_orders st env ledger).2 := by
  have hget : dictGet? ledger oid = some meta :=
    dictGet?_of_mem_nodup ledger oid meta hnd hmem
  rw [manage_orders_eq_foldl]
  exact manage_fold_skip st env _ oid meta
    (fun acc => manage_step_skips_no_created st env _ acc oid meta hcr)
    ledger (ledger, []) hmem hnd hget (by simp)

end MLBot
namespace MLBot









theorem manageOrders_cancels_timed_out_witness :
    "o1" ∈ (manage_orders stDefault envSweep [("o1", metaLive)]).2 ∧
    dictGet? (manage_orders stDefault envSweep [("o1", metaLive)]).1 "o1" =
      some { metaLive with state := "canceled" } := by
  have h := (manageOrders_cancels_timed_out stDefault envSweep [("o1", metaLive)]
    "o1" metaLive "2024-01-01T00:00:00+00:00"
    (by simp) (by simp) rfl (by simp [truthyStr, metaLive])).1 0 rfl
    (by norm_num [stDefault, envSweep])
  exact ⟨h.1, h.2.1 rfl⟩

theorem manageOrders_skips_missing_created_at_witness :
    dictGet? (manage_orders stDefault envSweep [("o2", metaNoCreated)]).1 "o2" =
      some metaNoCreated ∧
    "o2" ∉ (manage_orders stDefault envSweep [("o2", metaNoCreated)]).2 :=
  manageOrders_skips_missing_created_at stDefault envSweep [("o2", metaNoCreated)]
    "o2" metaNoCreated (by simp) (by simp) rfl rfl

/-- Claim C3: when the ledger already holds at least `max_open_positions` live
entries, `process_prediction` places no order and leaves the ledger
unchanged, whatever the prediction and environment. -/
theorem processPrediction_respects_max_open (st : Strategy) (symbol : String)
    (env : ProcEnv) (ledger : Ledger) (pred : Prediction)
    (h : (liveCount ledger : ℤ) ≥ st.max_open_positions.getD 10) :
    (process_prediction st symbol env ledger pred).2 = ledger ∧
    ∀ m, (process_prediction st symbol env ledger pred).1 ≠ .ok (some m) := by
  unfold process_prediction
  dsimp only
  cases hside : (if pred.signal == some "buy" then some "buy"
      else if pred.signal == some "sell" then some "sell" else none) with
  | none => simp
  | some side =>
    by_cases hst : should_trade st pred
    · simp only [hst, Bool.not_true, Bool.false_eq_true, if_false]
      cases hcs : calc_size st env.balance (calc_limit_price st pred side) with
      | error e => simp
      | ok size =>
        by_cases hsz : size ≤ 0
        · simp [hsz]
        · simp only [hsz, if_false, if_pos h]
          simp
    · simp [hst]





theorem processPrediction_respects_max_open_witness :
    (liveCount [("o1", metaLive)] : ℤ) ≥
      ({ stDefault with max_open_positions := some 1 } : Strategy).max_open_positions.getD 10 ∧
    (process_prediction { stDefault with max_open_positions := some 1 } "BTC-USDT"
      envProc [("o1", metaLive)] predBuy).2 = [("o1", metaLive)] :=
  ⟨by norm_num [liveCount, metaLive],
   (processPrediction_respects_max_open { stDefault with max_open_positions := some 1 }
     "BTC-USDT" envProc [("o1", metaLive)] predBuy
     (by norm_num [liveCount, metaLive])).1⟩

/-- Claim C4: in live (non-dry-run) mode a gateway failure leaves both
`place_order` and `cancel_order` atomic: they return null and the ledger
is unchanged. -/
theorem gateway_failure_atomic (st : Strategy) (ledger : Ledger)
    (symbol side order_id order_type : String) (price size : ℚ)
    (now : ℚ) (iso : String) (e1 e2 : String)
    (hlive : st.dry_run.getD true = false) :
    place_order st ⟨now, iso, .error e1⟩ ledger symbol side price size order_type
      = (none, ledger) ∧
    cancel_order st (.error e2) ledger order_id = (none, ledger) := by
  unfold place_order cancel_order
  simp [hlive]

theorem gateway_failure_atomic_witness :
    stLive.dry_run.getD true = false ∧
    place_order stLive ⟨1, "t", .error "boom"⟩ [] "BTC-USDT" "buy" 100 1 "limit"
      = (none, []) ∧
    cancel_order stLive (.error "boom") [] "o1" = (none, []) := by
  refine ⟨rfl, ?_⟩
  have h := gateway_failure_atomic stLive [] "BTC-USDT" "buy" "o1" "limit" 100 1
    1 "t" "boom" "boom" rfl
  exact h

/-- Claim C7: in dry-run mode, canceling an already-canceled order is
idempotent: the ledger retains the record with state `canceled`, no error
occurs, and a synthetic canceled acknowledgment is returned. -/
theorem cancelOrder_dry_idempotent (st : Strategy)
    (respQ : Except String OkxCancelResp) (ledger : Ledger)
    (oid : String) (meta : OrderMeta)
    (hdry : st.dry_run.getD true = true)
    (hmem : dictGet? ledger oid = some meta)
    (hcanc : meta.state = "canceled") :
    (cancel_order st respQ ledger oid).1 =
      some { sCode := none, state := some "canceled", ordId := some oid } ∧
    dictGet? (cancel_order st respQ ledger oid).2 oid = some meta := by
  constructor
  · unfold cancel_order
    simp [hdry]
  · have h := cancel_order_get_self_dry st respQ ledger oid meta hdry hmem
    rw [h]
    obtain ⟨a, b, c, d, e, f, g, i⟩ := meta
    simp only [OrderMeta.state] at hcanc
    subst hcanc
    rfl

theorem cancelOrder_dry_idempotent_witness :
    (cancel_order stDefault (.error "gw") [("o1", metaCanceled)] "o1").1 =
      some { sCode := none, state := some "canceled", ordId := some "o1" } ∧
    dictGet? (cancel_order stDefault (.error "gw") [("o1", metaCanceled)] "o1").2 "o1" =
      some metaCanceled :=
  cancelOrder_dry_idempotent stDefault (.error "gw") [("o1", metaCanceled)]
    "o1" metaCanceled rfl (by simp [dictGet?]) rfl

end MLBot
namespace MLBot

/-! ### Injectivity of the decimal rendering (for the order-id claim) -/





theorem evalDigitsFrom_cons (a : ℕ) (c : Char) (l : List Char) :
    evalDigitsFrom a (c :: l) = evalDigitsFrom (10 * a + digitVal c) l := rfl

theorem digitVal_digitChar (k : ℕ) (h : k < 10) :
    digitVal (Nat.digitChar k) = k := by
  interval_cases k <;> rfl

theorem toDigitsCore_eval (f : ℕ) : ∀ (n : ℕ) (ds : List Char), n < 10 ^ f →
    evalDigitsFrom 0 (Nat.toDigitsCore 10 f n ds) = evalDigitsFrom n ds := by
  induction f with
  | zero =>
    intro n ds h
    rw [pow_zero] at h
    interval_cases n
    rfl
  | succ f ih =>
    intro n ds h
    rw [Nat.toDigitsCore]
    by_cases h0 : n / 10 = 0
    · rw [if_pos h0, evalDigitsFrom_cons]
      have hn : n < 10 := (Nat.div_eq_zero_iff (by norm_num)).mp h0
      rw [digitVal_digitChar (n % 10) (Nat.mod_lt n (by norm_num)),
        Nat.mod_eq_of_lt hn]
      norm_num
    · rw [if_neg h0]
      have hlt : n / 10 < 10 ^ f := by
        rw [Nat.div_lt_iff_lt_mul (by norm_num : (0:ℕ) < 10)]
        rw [pow_succ] at h
        exact h
      rw [ih (n / 10) (Nat.digitChar (n % 10) :: ds) hlt, evalDigitsFrom_cons]
      rw [digitVal_digitChar (n % 10) (Nat.mod_lt n (by omega)), Nat.div_add_mod]

theorem nat_repr_eval (n : ℕ) : evalDigitsFrom 0 (Nat.toDigits 10 n) = n := by
  have h : n < 10 ^ (n + 1) :=
    lt_of_lt_of_le (Nat.lt_pow_self (by norm_num) n)
      (Nat.pow_le_pow_right (by norm_num) (Nat.le_succ n))
  have := toDigitsCore_eval (n + 1) n [] h
  rw [Nat.toDigits]
  exact this

theorem nat_repr_inj (m n : ℕ) (h : Nat.repr m = Nat.repr n) : m = n := by
  have hd : Nat.toDigits 10 m = Nat.toDigits 10 n := by
    rw [Nat.repr, Nat.repr] at h
    exact List.asString_inj.mp h
  have hm := nat_repr_eval m
  have hn := nat_repr_eval n
  rw [hd, hn] at hm
  exact hm.symm

theorem int_toString_ofNat (a : ℕ) : toString ((a : ℕ) : ℤ) = Nat.repr a := rfl

theorem int_toString_nonneg_inj (i j : ℤ) (hi : 0 ≤ i) (hj : 0 ≤ j)
    (h : toString i = toString j) : i = j := by
  lift i to ℕ using hi with a
  lift j to ℕ using hj with b
  rw [int_toString_ofNat, int_toString_ofNat] at h
  exact congrArg Int.ofNat (nat_repr_inj a b h)

theorem string_append_left_cancel (s x y : String) (h : s ++ x = s ++ y) :
    x = y := by
  have h' : s.data ++ x.data = s.data ++ y.data := congrArg String.data h
  exact congrArg String.mk (List.append_cancel_left h')

theorem pyInt_nonneg (x : ℚ) (h : 0 ≤ x) : 0 ≤ pyInt x := by
  unfold pyInt
  rw [if_pos h]
  exact Int.floor_nonneg.mpr h

theorem dryOrderId_inj (t1 t2 : ℚ) (h1 : 0 ≤ t1) (h2 : 0 ≤ t2)
    (hms : pyInt (t1 * 1000) ≠ pyInt (t2 * 1000)) :
    dryOrderId t1 ≠ dryOrderId t2 := by
  intro h
  apply hms
  exact int_toString_nonneg_inj _ _
    (pyInt_nonneg _ (mul_nonneg h1 (by norm_num)))
    (pyInt_nonneg _ (mul_nonneg h2 (by norm_num)))
    (string_append_left_cancel "dry_" _ _ h)

end MLBot
namespace MLBot

/-- Claim C6 (amended): dry-run order ids are determined by the millisecond
timestamp; placements at times with distinct millisecond values receive
distinct orderIds. -/
theorem placed_orderIds_distinct_ms (st : Strategy) (env1 env2 : PlaceEnv)
    (l1 l2 : Ledger) (sym1 side1 ot1 sym2 side2 ot2 : String)
    (p1 s1 p2 s2 : ℚ) (m1 m2 : OrderMeta)
    (hdry : st.dry_run.getD true = true)
    (ht1 : 0 ≤ env1.now) (ht2 : 0 ≤ env2.now)
    (hms : pyInt (env1.now * 1000) ≠ pyInt (env2.now * 1000))
    (h1 : (place_order st env1 l1 sym1 side1 p1 s1 ot1).1 = some m1)
    (h2 : (place_order st env2 l2 sym2 side2 p2 s2 ot2).1 = some m2) :
    m1.ordId ≠ m2.ordId := by
  unfold place_order at h1 h2
  simp only [hdry, if_true] at h1 h2
  have e1 : m1.ordId = dryOrderId env1.now := by
    injection h1 with h1
    rw [← h1]
  have e2 : m2.ordId = dryOrderId env2.now := by
    injection h2 with h2
    rw [← h2]
  rw [e1, e2]
  exact dryOrderId_inj env1.now env2.now ht1 ht2 hms

theorem placed_orderIds_distinct_ms_witness :
    pyInt ((1 : ℚ) * 1000) ≠ pyInt ((2 : ℚ) * 1000) ∧
    ((place_order stDefault ⟨1, "t1", .error "gw"⟩ [] "BTC-USDT" "buy" 100 1 "limit").1.map
        OrderMeta.ordId ≠
      (place_order stDefault ⟨2, "t2", .error "gw"⟩ [] "BTC-USDT" "buy" 100 1 "limit").1.map
        OrderMeta.ordId) := by
  have hms : pyInt ((1 : ℚ) * 1000) ≠ pyInt ((2 : ℚ) * 1000) := by
    norm_num [pyInt]
  refine ⟨hms, ?_⟩
  have h := placed_orderIds_distinct_ms stDefault ⟨1, "t1", .error "gw"⟩
    ⟨2, "t2", .error "gw"⟩ [] [] "BTC-USDT" "buy" "limit" "BTC-USDT" "buy" "limit"
    100 1 100 1 _ _ rfl (by norm_num) (by norm_num) hms rfl rfl
  simpa [place_order, stDefault] using h

/-- Claim C6 counterexample: two distinct dry-run order records placed within
the same millisecond (times 1s and 1.0005s) both receive orderId
`dry_1000`, so orderIds are not unique across the ledger's lifetime. -/
theorem orderId_collision_counterexample :
    ((place_order stDefault ⟨1, "t1", .error "gw"⟩ [] "BTC-USDT" "buy" 100 1 "limit").1.map
        OrderMeta.ordId = some "dry_1000") ∧
    ((place_order stDefault ⟨1 + 1/2000, "t2", .error "gw"⟩
        (place_order stDefault ⟨1, "t1", .error "gw"⟩ [] "BTC-USDT" "buy" 100 1 "limit").2
        "BTC-USDT" "sell" 100 1 "limit").1.map OrderMeta.ordId = some "dry_1000") ∧
    (place_order stDefault ⟨1, "t1", .error "gw"⟩ [] "BTC-USDT" "buy" 100 1 "limit").1 ≠
      (place_order stDefault ⟨1 + 1/2000, "t2", .error "gw"⟩
        (place_order stDefault ⟨1, "t1", .error "gw"⟩ [] "BTC-USDT" "buy" 100 1 "limit").2
        "BTC-USDT" "sell" 100 1 "limit").1 := by
  have hid1 : dryOrderId 1 = "dry_1000" := by
    have h : pyInt ((1 : ℚ) * 1000) = 1000 := by norm_num [pyInt]
    rw [dryOrderId, h]
    decide
  have hid2 : dryOrderId (1 + 2000⁻¹) = "dry_1000" := by
    have h : pyInt (((1 : ℚ) + 2000⁻¹) * 1000) = 1000 := by
      norm_num [pyInt]
    rw [dryOrderId, h]
    decide
  refine ⟨?_, ?_, ?_⟩
  · simp [place_order, stDefault, hid1]
  · simp [place_order, stDefault, hid1, hid2]
  · simp [place_order, stDefault, hid1, hid2]

end MLBot
namespace MLBot

/-! ### Rounding bound and the position-size exposure claim -/

theorem pyRoundInt_le (x : ℚ) : (pyRoundInt x : ℚ) ≤ x + 1/2 := by
  unfold pyRoundInt
  dsimp only
  have hfl : (⌊x⌋ : ℚ) ≤ x := Int.floor_le x
  split_ifs with h1 h2 h3
  · linarith
  · push_cast
    linarith
  · linarith
  · have he : x - (⌊x⌋ : ℚ) = 1/2 := le_antisymm (not_lt.mp h2) (not_lt.mp h1)
    push_cast
    linarith

theorem round8_le (x : ℚ) : round8 x ≤ x + 1/(2 * 10^8) := by
  unfold round8
  have h8 : (0:ℚ) < 10^8 := by norm_num
  rw [div_le_iff₀ h8]
  have hr : (x + 1/(2 * 10^8)) * 10^8 = x * 10^8 + 1/2 := by ring
  rw [hr]
  exact pyRoundInt_le (x * 10^8)

/-- Claim C9 (amended): in percent mode with a positive price, the implied
quote-currency allocation `size * price` can exceed
`min(balance * pct, maxExposureUsd)` only by the final rounding of the
size to 8 decimal places, i.e. by at most `price / (2 * 10^8)`. -/
theorem calcSize_percent_bounded (st : Strategy) (balance price size : ℚ)
    (hmode : st.position_size.mode.getD "percent" = "percent")
    (hp : 0 < price)
    (hsz : calc_size st (.ok balance) price = .ok size) :
    size * price ≤
      min (balance * st.position_size.percent_of_balance.getD (1/100))
        (st.max_exposure_usd.getD (10^9)) + price * (1/(2 * 10^8)) := by
  unfold calc_size at hsz
  simp only [hmode, beq_self_eq_true, if_true] at hsz
  injection hsz with hsz
  set alloc := min (balance * st.position_size.percent_of_balance.getD (1/100))
    (st.max_exposure_usd.getD (10^9)) with halloc
  have hb : size ≤ alloc / price + 1/(2 * 10^8) := by
    rw [← hsz]
    exact round8_le (alloc / price)
  have hmul := mul_le_mul_of_nonneg_right hb (le_of_lt hp)
  have hc : (alloc / price + 1/(2 * 10^8)) * price = alloc + price * (1/(2 * 10^8)) := by
    field_simp
    ring
  rw [hc] at hmul
  exact hmul

/-- Claim C9 counterexample: with balance 1.5e-6, pct 0.01 and price 1 the
allocation cap is 1.5e-8, but rounding the size to 8 decimals (banker's
rounding of 1.5 units) yields 2e-8, whose implied allocation exceeds the
cap. -/
theorem calcSize_exceeds_cap_counterexample :
    calc_size stDefault (.ok (3/2000000)) 1 = .ok (2/100000000) ∧
    ¬((2/100000000 : ℚ) * 1 ≤
      min ((3/2000000 : ℚ) * (stDefault.position_size.percent_of_balance.getD (1/100)))
        (stDefault.max_exposure_usd.getD (10^9))) := by
  constructor
  · norm_num [calc_size, stDefault, round8, pyRoundInt, min_def]
  · norm_num [stDefault, min_def]

theorem calcSize_percent_bounded_witness :
    calc_size stDefault (.ok 100) 1 = .ok 1 ∧
    (1 : ℚ) * 1 ≤
      min ((100 : ℚ) * (stDefault.position_size.percent_of_balance.getD (1/100)))
        (stDefault.max_exposure_usd.getD (10^9)) + 1 * (1/(2 * 10^8)) := by
  have hcs : calc_size stDefault (.ok 100) 1 = .ok 1 := by
    norm_num [calc_size, stDefault, round8, pyRoundInt, min_def]
  exact ⟨hcs, calcSize_percent_bounded stDefault 100 1 1 rfl (by norm_num) hcs⟩

end MLBot
namespace MLBot

/-! ### Sweep scheduling in the poll loop -/

theorem run_once_sweeps (st : Strategy) (symbol : String) (env : RunOnceEnv)
    (ledger L : Ledger) (n0 : ℕ)
    (h : run_once st symbol env ledger = .ok (L, n0)) :
    n0 = if env.pred.isSome then 1 else 0 := by
  unfold run_once at h
  cases hp : env.pred with
  | none =>
    rw [hp] at h
    simp only [Except.ok.injEq, Prod.mk.injEq] at h
    simp [h.2.symm]
  | some pred =>
    rw [hp] at h
    dsimp only at h
    cases hq : process_prediction st symbol env.procEnv ledger pred with
    | mk a b =>
      rw [hq] at h
      cases a with
      | error e => simp at h
      | ok v =>
        simp only [Except.ok.injEq, Prod.mk.injEq] at h
        simp [h.2.symm]







/-- Claim C8 (amended): in a loop iteration that completes without an exception,
the timer-gated sweep runs exactly when the elapsed time exceeds the
configured interval (default 15), resetting the timer then and only then;
but `manage_orders` additionally runs once, unconditionally, at the end of
`run_once` whenever a prediction was fetched, so the total number of sweeps
in the iteration is the sum of the two contributions. -/
theorem sweep_scheduling (st : Strategy) (symbol : String) (env : LoopIterEnv)
    (last_manage : ℚ) (ledger ledger' : Ledger) (lm' : ℚ) (n : ℕ)
    (h : run_loop_iter st symbol env last_manage ledger = .ok (ledger', lm', n)) :
    (n = (if env.runEnv.pred.isSome then 1 else 0) +
      (if env.t_check - last_manage > ((st.monitor_open_orders_every_sec.getD 15 : ℤ) : ℚ)
        then 1 else 0)) ∧
    (env.t_check - last_manage > ((st.monitor_open_orders_every_sec.getD 15 : ℤ) : ℚ) →
      lm' = env.t_reset) ∧
    (¬(env.t_check - last_manage > ((st.monitor_open_orders_every_sec.getD 15 : ℤ) : ℚ)) →
      lm' = last_manage) := by
  unfold run_loop_iter at h
  cases hro : run_once st symbol env.runEnv ledger with
  | error e => rw [hro] at h; simp at h
  | ok p =>
    obtain ⟨L, n0⟩ := p
    rw [hro] at h
    dsimp only at h
    have hn0 := run_once_sweeps st symbol env.runEnv ledger L n0 hro
    by_cases hg : env.t_check - last_manage >
        ((st.monitor_open_orders_every_sec.getD 15 : ℤ) : ℚ)
    · rw [if_pos hg] at h
      simp only [Except.ok.injEq, Prod.mk.injEq] at h
      refine ⟨?_, fun _ => h.2.1.symm, fun hng => absurd hg hng⟩
      rw [← h.2.2, hn0, if_pos hg]
    · rw [if_neg hg] at h
      simp only [Except.ok.injEq, Prod.mk.injEq] at h
      refine ⟨?_, fun hgg => absurd hgg hg, fun _ => h.2.1.symm⟩
      rw [← h.2.2, hn0, if_neg hg]
      rfl

theorem run_loop_iter_envLoopCex_eval :
    run_loop_iter stDefault "BTC-USDT" envLoopCex 0 [] = .ok ([], 0, 1) := by
  have hgate : ¬((10 : ℚ) - 0 > ((stDefault.monitor_open_orders_every_sec.getD 15 : ℤ) : ℚ)) := by
    norm_num [stDefault]
  simp [run_loop_iter, run_once, process_prediction, manage_orders, envLoopCex,
    predHold, envManageTrivial, stDefault, hgate]
  norm_num

/-- Claim C8 counterexample: an iteration in which the sweep interval has not
elapsed (10 − 0 ≤ 15) nevertheless runs `manage_orders` once — inside
`run_once` — refuting "in iterations where the interval has not elapsed,
manageOrders is not run". -/
theorem sweepGate_counterexample :
    ¬(envLoopCex.t_check - 0 >
      ((stDefault.monitor_open_orders_every_sec.getD 15 : ℤ) : ℚ)) ∧
    run_loop_iter stDefault "BTC-USDT" envLoopCex 0 [] = .ok ([], 0, 1) := by
  constructor
  · norm_num [envLoopCex, stDefault]
  · exact run_loop_iter_envLoopCex_eval

theorem sweep_scheduling_witness :
    run_loop_iter stDefault "BTC-USDT" envLoopCex 0 [] = .ok ([], 0, 1) ∧
    (1 : ℕ) = (if envLoopCex.runEnv.pred.isSome then 1 else 0) +
      (if envLoopCex.t_check - 0 >
          ((stDefault.monitor_open_orders_every_sec.getD 15 : ℤ) : ℚ) then 1 else 0) :=
  ⟨run_loop_iter_envLoopCex_eval,
   (sweep_scheduling stDefault "BTC-USDT" envLoopCex 0 [] [] 0 1
     run_loop_iter_envLoopCex_eval).1⟩

end MLBot